import Mathlib

/-!
Verification of the restaurant recommendation agent (`restaurant_agent.py`).

The development shallowly embeds the Python source: machine floats are
modelled as rationals, Python dictionaries as association lists, and the
human-readable reason / trace strings as tagged values carrying exactly the
data that the source interpolates into them.  Every definition mirrors one
Python function or block; the theorems at the end of the file settle the
specification claims.
-/

/-! ## Character and string helpers (Python `str` methods, `re` primitives) -/

/-- Python `str.lower()` on a character list. -/
def pyLowerChars (s : List Char) : List Char := s.map Char.toLower

/-- Python `str.lower()`. -/
def pyLower (s : String) : String := String.mk (pyLowerChars s.data)

/-- `pat` is a prefix of `s` (character-exact, as in `re` literal matching). -/
def charsPre : List Char → List Char → Bool
  | [], _ => true
  | _ :: _, [] => false
  | a :: as, b :: bs => a == b && charsPre as bs

/-- `pat` occurs as a contiguous substring of `s`: Python `pat in s`. -/
def hasSub (pat : List Char) : List Char → Bool
  | [] => pat.isEmpty
  | b :: bs => charsPre pat (b :: bs) || hasSub pat bs

/-- Python regex `\w`: word character (ASCII letters, digits, underscore). -/
def isWordChar (c : Char) : Bool := c.isAlphanum || c == '_'

/-- Python regex `\s`: whitespace character (the forms occurring in queries). -/
def isSpaceChar (c : Char) : Bool := c == ' ' || c == '\t' || c == '\n' || c == '\r'

/-- Split off the maximal run of characters satisfying `p` (greedy `p*`). -/
def takeRun (p : Char → Bool) : List Char → List Char × List Char
  | [] => ([], [])
  | c :: cs =>
      if p c then
        let r := takeRun p cs
        (c :: r.1, r.2)
      else ([], c :: cs)

/-- Consume the literal `lit`, returning the rest of the input on success. -/
def eatLit : List Char → List Char → Option (List Char)
  | [], s => some s
  | _ :: _, [] => none
  | a :: as, b :: bs => if a == b then eatLit as bs else none

/-- Greedy `\s+`: at least one whitespace character; returns (run, rest). -/
def eatSpaces1 (s : List Char) : Option (List Char × List Char) :=
  let r := takeRun isSpaceChar s
  if r.1.isEmpty then none else some r

/-- Greedy `\w+`: at least one word character; returns (run, rest). -/
def eatWord1 (s : List Char) : Option (List Char × List Char) :=
  let r := takeRun isWordChar s
  if r.1.isEmpty then none else some r

/-- Greedy `\d+`: at least one digit; returns (run, rest). -/
def eatDigits1 (s : List Char) : Option (List Char × List Char) :=
  let r := takeRun Char.isDigit s
  if r.1.isEmpty then none else some r

/-- Python `str.isdigit()` for the tokens produced here: nonempty, all digits. -/
def pyIsDigit (s : List Char) : Bool := !s.isEmpty && s.all Char.isDigit

/-- Python `int(...)` on a digit string. -/
def digitsToNat (s : List Char) : Nat :=
  s.foldl (fun acc c => acc * 10 + (c.toNat - 48)) 0

/-- Python `str.capitalize()`: first character upper-cased, rest lower-cased. -/
def pyCapitalize : List Char → List Char
  | [] => []
  | c :: cs => c.toUpper :: cs.map Char.toLower

/-- One step of Python `str.title()`: the flag records whether the previous
character was alphabetic. -/
def pyTitleAux : Bool → List Char → List Char
  | _, [] => []
  | prevAlpha, c :: cs =>
      let c2 := if c.isAlpha && !prevAlpha then c.toUpper
                else if c.isAlpha then c.toLower else c
      c2 :: pyTitleAux c.isAlpha cs

/-- Python `str.title()`. -/
def pyTitle (s : List Char) : List Char := pyTitleAux false s

/-! ## Data model (`Constraints`, `Restaurant`) -/

/-- `Constraints` dataclass: every field optional (`None` when not extracted). -/
structure Constraints where
  cuisine : Option String
  location : Option String
  price_max : Option ℚ
  party_size : Option Nat
  day : Option String
  time : Option String
  special_requests : List String
deriving DecidableEq, Repr

/-- `Restaurant` dataclass.  `availability` is the Python dict, as an
association list preserving insertion order. -/
structure Restaurant where
  name : String
  cuisine : String
  location : String
  price_range : String
  avg_price_per_person : ℚ
  rating : ℚ
  availability : List (String × List String)
  has_window_seating : Bool
  window_view : List String
  distance_from_center : ℚ
deriving DecidableEq, Repr

/-- Python `dict.get(key, default)` on the association-list dictionary. -/
def dictFind (d : List (String × List String)) (k : String) : Option (List String) :=
  match d with
  | [] => none
  | (k2, v) :: rest => if k2 == k then some v else dictFind rest k

/-- Python `dict.get(key, [])`. -/
def dictGetD (d : List (String × List String)) (k : String) : List String :=
  (dictFind d k).getD []

/-! ## Truthiness guards

Python `if constraints.x:` skips on `None`, on the empty string, and on
numeric zero; the guards below reproduce that, not mere presence. -/

/-- Truthiness of an optional string. -/
def truthyStr : Option String → Bool
  | none => false
  | some s => !(s == "")

/-- Truthiness of an optional rational (Python float). -/
def truthyQ : Option ℚ → Bool
  | none => false
  | some q => !(q == 0)

/-- Truthiness of an optional natural (Python int). -/
def truthyNat : Option Nat → Bool
  | none => false
  | some n => !(n == 0)

/-! ## The constraint predicate (`Restaurant.matches_constraints`)

The Python method accumulates a `matches : List[bool]` and a parallel
`reasons : List[str]` and returns `(all(matches), reasons)`.  Each reason
string is tagged with its check and its pass/fail marker; the embedding keeps
exactly that tag. -/

/-- Which check a reason entry belongs to, in source order. -/
inductive CheckKind where
  | cuisine
  | location
  | price
  | availability
  | window
deriving DecidableEq, Repr

/-- Cuisine check: case-insensitive equality. -/
def cuisineCheck (r : Restaurant) (cu : String) : Bool :=
  pyLower r.cuisine == pyLower cu

/-- Location check: venue location contains both "downtown" and "baltimore"
case-insensitively (hard-coded in the source). -/
def locationCheck (r : Restaurant) : Bool :=
  hasSub ("downtown").data (pyLower r.location).data &&
  hasSub ("baltimore").data (pyLower r.location).data

/-- Price check: `avg_price_per_person * party_size <= price_max`. -/
def priceCheck (r : Restaurant) (pm : ℚ) (ps : Nat) : Bool :=
  decide (r.avg_price_per_person * (ps : ℚ) ≤ pm)

/-- Availability check: the exact time string is in the day's slot list,
`availability.get(day, [])`. -/
def availCheck (r : Restaurant) (d t : String) : Bool :=
  (dictGetD r.availability d).contains t

/-- Window check: window seating and a nonempty view list. -/
def windowCheck (r : Restaurant) : Bool :=
  r.has_window_seating && !r.window_view.isEmpty

/-- `"window" in str(constraints.special_requests).lower()`: since the
`str()` rendering of a list of strings contains "window" exactly when some
element does, this is membership of "window" in some lower-cased tag. -/
def windowRequested (c : Constraints) : Bool :=
  c.special_requests.any (fun s => hasSub ("window").data (pyLower s).data)

/-- `if constraints.cuisine:` block — one (kind, pass) entry when evaluated. -/
def cuisineSeg (r : Restaurant) (c : Constraints) : List (CheckKind × Bool) :=
  match c.cuisine with
  | some cu => if cu = "" then [] else [(CheckKind.cuisine, cuisineCheck r cu)]
  | none => []

/-- `if constraints.location:` block. -/
def locationSeg (r : Restaurant) (c : Constraints) : List (CheckKind × Bool) :=
  match c.location with
  | some loc => if loc = "" then [] else [(CheckKind.location, locationCheck r)]
  | none => []

/-- `if constraints.price_max and constraints.party_size:` block. -/
def priceSeg (r : Restaurant) (c : Constraints) : List (CheckKind × Bool) :=
  match c.price_max, c.party_size with
  | some pm, some ps =>
      if pm = 0 ∨ ps = 0 then [] else [(CheckKind.price, priceCheck r pm ps)]
  | _, _ => []

/-- `if constraints.day and constraints.time:` block. -/
def availSeg (r : Restaurant) (c : Constraints) : List (CheckKind × Bool) :=
  match c.day, c.time with
  | some d, some t =>
      if d = "" ∨ t = "" then [] else [(CheckKind.availability, availCheck r d t)]
  | _, _ => []

/-- `if "window" in str(constraints.special_requests).lower():` block. -/
def windowSeg (r : Restaurant) (c : Constraints) : List (CheckKind × Bool) :=
  if windowRequested c then [(CheckKind.window, windowCheck r)] else []

/-- The evaluated checks in source order: cuisine, location, price,
availability, window. -/
def checksOf (r : Restaurant) (c : Constraints) : List (CheckKind × Bool) :=
  cuisineSeg r c ++ locationSeg r c ++ priceSeg r c ++ availSeg r c ++ windowSeg r c

/-- `Restaurant.matches_constraints`: returns `(all(matches), reasons)`. -/
def Restaurant.matches_constraints (r : Restaurant) (c : Constraints) :
    Bool × List (CheckKind × Bool) :=
  let cs := checksOf r c
  (cs.all (fun x => x.2), cs)

/-! ## NLP parser (`NLPParser`)

Each regex of the source is embedded as a matcher that tries the pattern at
one position; `searchPos` reproduces `re.search`'s leftmost-position scan. -/

/-- `re.search`: try the position matcher at every position, leftmost first. -/
def searchPos (f : List Char → Option (List Char)) : List Char → Option (List Char)
  | [] => f []
  | c :: cs =>
      match f (c :: cs) with
      | some x => some x
      | none => searchPos f cs

/-- First pattern of the list that is a prefix at this position (regex
alternation order). -/
def firstPre (pats : List (List Char)) (s : List Char) : Option (List Char) :=
  match pats with
  | [] => none
  | p :: ps => if charsPre p s then some p else firstPre ps s

/-- First keyword of the list occurring as a substring (source loop order). -/
def firstSub (pats : List (List Char)) (s : List Char) : Option (List Char) :=
  match pats with
  | [] => none
  | p :: ps => if hasSub p s then some p else firstSub ps s

/-- `CUISINE_KEYWORDS`. -/
def CUISINE_KEYWORDS : List (List Char) :=
  [("turkish").data, ("italian").data, ("chinese").data, ("mexican").data,
   ("indian").data, ("french").data, ("japanese").data]

/-- One location pattern `<kw>\s+(downtown\s+\w+(?:\s+\w+)?)` at a position;
returns the capture group (the actual matched characters). -/
def locAt (kw : List Char) (s : List Char) : Option (List Char) := do
  let r1 ← eatLit kw s
  let (_, r2) ← eatSpaces1 r1
  let r3 ← eatLit ("downtown").data r2
  let (sp1, r4) ← eatSpaces1 r3
  let (w1, r5) ← eatWord1 r4
  let base := ("downtown").data ++ sp1 ++ w1
  match eatSpaces1 r5 with
  | none => pure base
  | some (sp2, r6) =>
      match eatWord1 r6 with
      | none => pure base
      | some (w2, _) => pure (base ++ sp2 ++ w2)

/-- `LOCATION_PATTERNS`: the `in ...` pattern searched first, then `at ...`. -/
def locSearch (s : List Char) : Option (List Char) :=
  match searchPos (locAt ("in").data) s with
  | some cap => some cap
  | none => searchPos (locAt ("at").data) s

/-- Skip an optional literal dollar sign (`\$?`). -/
def dropDollar : List Char → List Char
  | [] => []
  | c :: cs => if c == '$' then cs else c :: cs

/-- `PRICE_PATTERN = under\s+\$?(\d+)` at a position; returns the digits. -/
def priceAt (s : List Char) : Option (List Char) := do
  let r1 ← eatLit ("under").data s
  let (_, r2) ← eatSpaces1 r1
  let (ds, _) ← eatDigits1 (dropDollar r2)
  pure ds

/-- `PARTY_PATTERN = for\s+(\w+|\d+)\s+people?` at a position; the alternation
resolves to the maximal word run (word and space characters are disjoint, so
no shorter split can satisfy the following `\s+`); `people?` requires only
the prefix "peopl". Returns the captured token. -/
def partyAt (s : List Char) : Option (List Char) := do
  let r1 ← eatLit ("for").data s
  let (_, r2) ← eatSpaces1 r1
  let (w, r3) ← eatWord1 r2
  let (_, r4) ← eatSpaces1 r3
  let _ ← eatLit ("peopl").data r4
  pure w

/-- `DAY_PATTERN` weekday alternatives, in source order. -/
def weekdays : List (List Char) :=
  [("monday").data, ("tuesday").data, ("wednesday").data, ("thursday").data,
   ("friday").data, ("saturday").data, ("sunday").data]

/-- `TIME_PATTERN`'s `\d{1,2}:` with greedy backtracking: two digits before
the colon when possible, else one. Returns (hour digits, rest after colon). -/
def timeDigits : List Char → Option (List Char × List Char)
  | d1 :: d2 :: c :: rest =>
      if d1.isDigit && d2.isDigit && c == ':' then some ([d1, d2], rest)
      else if d1.isDigit && d2 == ':' then some ([d1], c :: rest)
      else none
  | d1 :: c :: rest =>
      if d1.isDigit && c == ':' then some ([d1], rest)
      else none
  | _ => none

/-- `TIME_PATTERN = at\s+(\d{1,2}:\d{2}\s*(?:am|pm)?)` at a position.  The
capture group includes the `\s*` run and, when present, the am/pm marker. -/
def timeAt (s : List Char) : Option (List Char) := do
  let r1 ← eatLit ("at").data s
  let (_, r2) ← eatSpaces1 r1
  let (hh, r3) ← timeDigits r2
  match r3 with
  | m1 :: m2 :: r4 =>
      if m1.isDigit && m2.isDigit then
        let sp := takeRun isSpaceChar r4
        let ampm := if charsPre ("am").data sp.2 then ("am").data
                    else if charsPre ("pm").data sp.2 then ("pm").data
                    else []
        pure (hh ++ ':' :: m1 :: m2 :: (sp.1 ++ ampm))
      else none
  | _ => none

/-- Field searches over the lower-cased query. -/
def cuisineSearch (ql : List Char) : Option (List Char) := firstSub CUISINE_KEYWORDS ql

/-- `re.search(PRICE_PATTERN, query_lower)`. -/
def priceSearch (ql : List Char) : Option (List Char) := searchPos priceAt ql

/-- `re.search(PARTY_PATTERN, query_lower)`. -/
def partySearch (ql : List Char) : Option (List Char) := searchPos partyAt ql

/-- `re.search(DAY_PATTERN, query_lower)`. -/
def daySearch (ql : List Char) : Option (List Char) := searchPos (firstPre weekdays) ql

/-- `re.search(TIME_PATTERN, query_lower)`. -/
def timeSearch (ql : List Char) : Option (List Char) := searchPos timeAt ql

/-- `word_to_num` dictionary. -/
def word_to_num : List (List Char × Nat) :=
  [(("one").data, 1), (("two").data, 2), (("three").data, 3),
   (("four").data, 4), (("five").data, 5)]

/-- Association-list lookup for `word_to_num.get`. -/
def wordLookup : List (List Char × Nat) → List Char → Option Nat
  | [], _ => none
  | (k, v) :: rest, t => if k == t then some v else wordLookup rest t

/-- Party token to number: `int(num_str)` when `isdigit()`, otherwise
`word_to_num.get(num_str, 2)`. -/
def tokenToNum (t : List Char) : Nat :=
  if pyIsDigit t then digitsToNat t else (wordLookup word_to_num t).getD 2

/-- Trace events appended to `NLPParser.logger`, tagged with the values the
source interpolates into the messages. -/
inductive PEvent where
  | parsing (q : String)
  | cuisineFound (s : String)
  | locationFound (s : String)
  | priceFound (p : ℚ)
  | partyFound (n : Nat)
  | dayFound (s : String)
  | timeFound (s : String)
  | windowFound
  | viewFound (s : String)
deriving DecidableEq, Repr

/-- `NLPParser.parse`: the constraints together with the logger entries this
call appends. -/
def parseWithEvents (q : String) : Constraints × List PEvent :=
  let ql := pyLowerChars q.data
  let cu := (cuisineSearch ql).map (fun k => String.mk (pyCapitalize k))
  let lo := (locSearch ql).map (fun k => String.mk (pyTitle k))
  let pr := (priceSearch ql).map (fun ds => ((digitsToNat ds : ℚ)))
  let pa := (partySearch ql).map tokenToNum
  let dy := (daySearch ql).map (fun k => String.mk (pyCapitalize k))
  let tm := (timeSearch ql).map String.mk
  let windowReq := hasSub ("window").data ql
  let garden := hasSub ("garden").data ql
  let street := hasSub ("street").data ql
  let viewList := (if garden then [("garden" : String)] else []) ++
                  (if street then [("street" : String)] else [])
  let viewTag := ("view: ") ++ String.intercalate (", ") viewList
  let sreq := (if windowReq then [("window seating" : String)] else []) ++
              (if garden || street then [viewTag] else [])
  let c : Constraints :=
    { cuisine := cu, location := lo, price_max := pr, party_size := pa,
      day := dy, time := tm, special_requests := sreq }
  let evs := [PEvent.parsing q]
    ++ (match cu with | some s => [PEvent.cuisineFound s] | none => [])
    ++ (match lo with | some s => [PEvent.locationFound s] | none => [])
    ++ (match pr with | some p => [PEvent.priceFound p] | none => [])
    ++ (match pa with | some n => [PEvent.partyFound n] | none => [])
    ++ (match dy with | some s => [PEvent.dayFound s] | none => [])
    ++ (match tm with | some s => [PEvent.timeFound s] | none => [])
    ++ (if windowReq then [PEvent.windowFound] else [])
    ++ (if garden || street
        then [PEvent.viewFound (String.intercalate (", ") viewList)] else [])
  (c, evs)

/-- The constraints produced by one `parse` call. -/
def NLPParser.parse (q : String) : Constraints := (parseWithEvents q).1

/-- The logger entries one `parse` call appends to `NLPParser.logger`. -/
def parseEvents (q : String) : List PEvent := (parseWithEvents q).2

/-! ## Mock database (`create_mock_database`) -/

/-- The built-in catalog, in source order. -/
def create_mock_database : List Restaurant :=
  [{ name := "Istanbul Grill", cuisine := "Turkish",
     location := "Downtown Baltimore, MD", price_range := "$$",
     avg_price_per_person := 28, rating := 4.5,
     availability :=
       [("Thursday", ["6:00 pm", "6:30 pm", "7:00 pm", "7:30 pm", "8:00 pm"]),
        ("Friday", ["6:00 pm", "7:00 pm", "8:00 pm"])],
     has_window_seating := true, window_view := ["street"],
     distance_from_center := 0.3 },
   { name := "Anatolian Kitchen", cuisine := "Turkish",
     location := "Downtown Baltimore, MD", price_range := "$$",
     avg_price_per_person := 32, rating := 4.7,
     availability :=
       [("Thursday", ["5:30 pm", "6:00 pm", "7:30 pm", "8:30 pm"]),
        ("Friday", ["6:00 pm", "7:00 pm"])],
     has_window_seating := true, window_view := ["garden", "street"],
     distance_from_center := 0.5 },
   { name := "Bosphorus Cafe", cuisine := "Turkish",
     location := "Downtown Baltimore, MD", price_range := "$",
     avg_price_per_person := 22, rating := 4.2,
     availability :=
       [("Thursday", ["6:00 pm", "7:00 pm", "8:00 pm"]),
        ("Friday", ["6:30 pm", "7:30 pm"])],
     has_window_seating := false, window_view := [],
     distance_from_center := 0.8 },
   { name := "Sultan\x27s Table", cuisine := "Turkish",
     location := "Downtown Baltimore, MD", price_range := "$$$",
     avg_price_per_person := 45, rating := 4.8,
     availability :=
       [("Thursday", ["6:00 pm", "6:30 pm", "7:30 pm"]),
        ("Friday", ["7:00 pm", "8:00 pm"])],
     has_window_seating := true, window_view := ["garden"],
     distance_from_center := 0.2 },
   { name := "Mediterranean Breeze", cuisine := "Mediterranean",
     location := "Downtown Baltimore, MD", price_range := "$$",
     avg_price_per_person := 30, rating := 4.4,
     availability :=
       [("Thursday", ["7:30 pm", "8:00 pm"]),
        ("Friday", ["6:00 pm", "7:00 pm"])],
     has_window_seating := true, window_view := ["street"],
     distance_from_center := 0.4 },
   { name := "Turkish Delight", cuisine := "Turkish",
     location := "Harbor East, Baltimore, MD", price_range := "$$",
     avg_price_per_person := 26, rating := 4.3,
     availability :=
       [("Thursday", ["7:30 pm", "8:00 pm"]),
        ("Friday", ["6:00 pm", "7:00 pm"])],
     has_window_seating := true, window_view := ["harbor"],
     distance_from_center := 1.2 }]

/-! ## Utility scoring (`RestaurantAgent._calculate_utility`) -/

/-- Python `round(x)` on rationals: round half to even (banker's rounding). -/
def bankerRound (q : ℚ) : ℤ :=
  if q - ⌊q⌋ < 1 / 2 then ⌊q⌋
  else if 1 / 2 < q - ⌊q⌋ then ⌊q⌋ + 1
  else if ⌊q⌋ % 2 = 0 then ⌊q⌋ else ⌊q⌋ + 1

/-- Python `round(x, 2)`. -/
def pyRound2 (q : ℚ) : ℚ := (bankerRound (q * 100) : ℚ) / 100

/-- The price-efficiency branch of the score, with the source's truthiness
guard on `price_max` and `party_size`; contributes nothing when skipped. -/
def priceTerm (c : Constraints) (r : Restaurant) : ℚ :=
  match c.price_max, c.party_size with
  | some pm, some ps =>
      if pm = 0 ∨ ps = 0 then 0
      else ((pm - r.avg_price_per_person * (ps : ℚ)) / pm) * 20
  | _, _ => 0

/-- Distance component: `max(0, 20 - distance_from_center * 10)`. -/
def distScore (r : Restaurant) : ℚ := max 0 (20 - r.distance_from_center * 10)

/-- Window-seating bonus with the garden and street extras. -/
def windowBonus (r : Restaurant) : ℚ :=
  if r.has_window_seating then
    15 + (if ("garden" : String) ∈ r.window_view then 10 else 0)
       + (if ("street" : String) ∈ r.window_view then 5 else 0)
  else 0

/-- `RestaurantAgent._calculate_utility`. -/
def calculate_utility (c : Constraints) (r : Restaurant) : ℚ :=
  pyRound2 (r.rating * 6 + priceTerm c r + distScore r + windowBonus r)

/-! ## Ranking (`RestaurantAgent._rank_results`)

`list.sort(key=..., reverse=True)` is a stable sort; stable sorting is
extensionally unique, so the stable insertion sort below is the same
function on every input. -/

/-- Stable descending insertion: walk past strictly greater scores only, so
earlier elements stay ahead of equal-scored later ones. -/
def insertRanked (x : Restaurant × ℚ) :
    List (Restaurant × ℚ) → List (Restaurant × ℚ)
  | [] => [x]
  | y :: ys => if x.2 < y.2 then y :: insertRanked x ys else x :: y :: ys

/-- Stable sort by descending utility score. -/
def sortRanked : List (Restaurant × ℚ) → List (Restaurant × ℚ)
  | [] => []
  | x :: xs => insertRanked x (sortRanked xs)

/-- The scored list in filter-pass order, before sorting. -/
def scoredResults (c : Constraints) (filtered : List Restaurant) :
    List (Restaurant × ℚ) :=
  filtered.map (fun r => (r, calculate_utility c r))

/-- `RestaurantAgent._rank_results` (venue, score) pairs, sorted descending
by score with Python's stable sort. -/
def rank_results (c : Constraints) (filtered : List Restaurant) :
    List (Restaurant × ℚ) :=
  sortRanked (scoredResults c filtered)

/-! ## The orchestrating agent (`RestaurantAgent`) -/

/-- `SearchState` enum. -/
inductive SearchState where
  | INITIAL
  | NLP_PARSING
  | CONSTRAINT_EXTRACTION
  | DATA_RETRIEVAL
  | FILTERING
  | RANKING
  | COMPLETE
deriving DecidableEq, Repr

/-- One entry of `RestaurantAgent.log`.  `log_event` lines are tagged with
the call site and the values interpolated into the message (wall-clock
timestamps are outside the embedding); `nlp` wraps an entry copied from the
parser's logger by `self.log.extend(self.parser.logger)`. -/
inductive LogEntry where
  | rule
  | started
  | completed
  | transition (a b : SearchState)
  | nlp (e : PEvent)
  | constraintsMsg (c : Constraints)
  | retrievedMsg (n : Nat)
  | filterStart
  | evaluating (name : String)
  | reason (k : CheckKind) (pass : Bool)
  | passMsg
  | failMsg
  | filterDone (passed total : Nat)
  | rankStart
  | rankEntry (name : String) (score : ℚ)
deriving DecidableEq, Repr

/-- The mutable fields of a `RestaurantAgent` instance. -/
structure AgentState where
  state : SearchState
  parserLogger : List PEvent
  database : List Restaurant
  log : List LogEntry
  constraints : Option Constraints
  candidates : List Restaurant
  filtered : List Restaurant
  ranked : List (Restaurant × ℚ)

/-- `RestaurantAgent.__init__`: fresh parser (empty logger), the mock
database, empty log and result lists. -/
def initAgent : AgentState :=
  { state := SearchState.INITIAL, parserLogger := [],
    database := create_mock_database, log := [], constraints := none,
    candidates := [], filtered := [], ranked := [] }

/-- The filtering loop of `search`: per venue, an `Evaluating` line, one line
per reason, and a pass/fail line; passers are collected in catalog order. -/
def runFilter (c : Constraints) : List Restaurant → List Restaurant × List LogEntry
  | [] => ([], [])
  | r :: rs =>
      let m := r.matches_constraints c
      let rest := runFilter c rs
      ((if m.1 then r :: rest.1 else rest.1),
       (LogEntry.evaluating r.name ::
          m.2.map (fun x => LogEntry.reason x.1 x.2) ++
          [if m.1 then LogEntry.passMsg else LogEntry.failMsg]) ++ rest.2)

/-- The per-venue log lines of `_rank_results`, emitted in filter-pass order
before the sort. -/
def rankLog (c : Constraints) (filtered : List Restaurant) : List LogEntry :=
  filtered.flatMap (fun r => [LogEntry.rankEntry r.name (calculate_utility c r)])

/-- `RestaurantAgent.search`: the full pipeline, returning the updated
instance state and the ranked results.  The parser's logger is extended, not
replaced, and `self.log.extend(self.parser.logger)` copies the parser's
entire accumulated logger. -/
def search (st : AgentState) (q : String) :
    AgentState × List (Restaurant × ℚ) :=
  let p := parseWithEvents q
  let plog := st.parserLogger ++ p.2
  let fl := runFilter p.1 st.database
  let ranked := rank_results p.1 fl.1
  let log2 := st.log
    ++ [LogEntry.rule, LogEntry.started, LogEntry.rule,
        LogEntry.transition st.state SearchState.NLP_PARSING]
    ++ plog.map LogEntry.nlp
    ++ [LogEntry.transition SearchState.NLP_PARSING SearchState.CONSTRAINT_EXTRACTION,
        LogEntry.constraintsMsg p.1,
        LogEntry.transition SearchState.CONSTRAINT_EXTRACTION SearchState.DATA_RETRIEVAL,
        LogEntry.retrievedMsg st.database.length,
        LogEntry.transition SearchState.DATA_RETRIEVAL SearchState.FILTERING,
        LogEntry.filterStart]
    ++ fl.2
    ++ [LogEntry.filterDone fl.1.length st.database.length,
        LogEntry.transition SearchState.FILTERING SearchState.RANKING,
        LogEntry.rankStart]
    ++ rankLog p.1 fl.1
    ++ [LogEntry.transition SearchState.RANKING SearchState.COMPLETE,
        LogEntry.rule, LogEntry.completed, LogEntry.rule]
  ({ state := SearchState.COMPLETE, parserLogger := plog,
     database := st.database, log := log2, constraints := some p.1,
     candidates := st.database, filtered := fl.1, ranked := ranked }, ranked)

/-! ## Sorting lemmas -/

theorem mem_insertRanked (x z : Restaurant × ℚ) (l : List (Restaurant × ℚ)) :
    z ∈ insertRanked x l ↔ z = x ∨ z ∈ l := by
  induction l with
  | nil => simp [insertRanked]
  | cons y ys ih =>
      by_cases h : x.2 < y.2
      · simp only [insertRanked, if_pos h, List.mem_cons, ih]
        tauto
      · simp only [insertRanked, if_neg h, List.mem_cons]

theorem pairwise_insertRanked (x : Restaurant × ℚ) (l : List (Restaurant × ℚ))
    (hl : l.Pairwise (fun a b => b.2 ≤ a.2)) :
    (insertRanked x l).Pairwise (fun a b => b.2 ≤ a.2) := by
  induction l with
  | nil => simp [insertRanked]
  | cons y ys ih =>
      rcases List.pairwise_cons.mp hl with ⟨hy, hys⟩
      by_cases h : x.2 < y.2
      · simp only [insertRanked, if_pos h]
        refine List.pairwise_cons.mpr ⟨?_, ih hys⟩
        intro z hz
        rcases (mem_insertRanked x z ys).mp hz with rfl | hz2
        · exact le_of_lt h
        · exact hy z hz2
      · simp only [insertRanked, if_neg h]
        push_neg at h
        refine List.pairwise_cons.mpr ⟨?_, hl⟩
        intro z hz
        rcases List.mem_cons.mp hz with rfl | hz2
        · exact h
        · exact le_trans (hy z hz2) h

theorem pairwise_sortRanked (l : List (Restaurant × ℚ)) :
    (sortRanked l).Pairwise (fun a b => b.2 ≤ a.2) := by
  induction l with
  | nil => exact List.Pairwise.nil
  | cons x xs ih => exact pairwise_insertRanked x (sortRanked xs) ih

theorem filter_insertRanked (x : Restaurant × ℚ) (l : List (Restaurant × ℚ)) (k : ℚ) :
    (insertRanked x l).filter (fun z => z.2 == k) =
      (if x.2 == k then x :: l.filter (fun z => z.2 == k)
       else l.filter (fun z => z.2 == k)) := by
  induction l with
  | nil =>
      by_cases hx : x.2 = k <;> simp [insertRanked, List.filter_cons, hx]
  | cons y ys ih =>
      by_cases h : x.2 < y.2
      · simp only [insertRanked, if_pos h, List.filter_cons]
        by_cases hx : x.2 = k
        · have hy : ¬ (y.2 = k) := by intro hy2; rw [hx] at h; rw [hy2] at h; exact lt_irrefl k h
          simp [hx, hy, ih]
        · simp [hx, ih, List.filter_cons]
      · simp only [insertRanked, if_neg h, List.filter_cons]

theorem filter_sortRanked (l : List (Restaurant × ℚ)) (k : ℚ) :
    (sortRanked l).filter (fun z => z.2 == k) = l.filter (fun z => z.2 == k) := by
  induction l with
  | nil => rfl
  | cons x xs ih =>
      simp only [sortRanked]
      rw [filter_insertRanked]
      by_cases hx : x.2 = k <;> simp [hx, List.filter_cons, ih]

theorem perm_insertRanked (x : Restaurant × ℚ) (l : List (Restaurant × ℚ)) :
    (insertRanked x l).Perm (x :: l) := by
  induction l with
  | nil => simp [insertRanked]
  | cons y ys ih =>
      by_cases h : x.2 < y.2
      · simp only [insertRanked, if_pos h]
        exact (ih.cons y).trans (List.Perm.swap x y ys)
      · simp [insertRanked, if_neg h]

theorem perm_sortRanked (l : List (Restaurant × ℚ)) : (sortRanked l).Perm l := by
  induction l with
  | nil => exact List.Perm.refl []
  | cons x xs ih => exact (perm_insertRanked x (sortRanked xs)).trans (ih.cons x)

/-- C1: for every filtered venue list and constraint model, the ranked output
returned by `search` (computed in `_rank_results`) is a permutation of the
scored filter-pass list, sorted in descending order of utility score (each
element's score is at least its successor's), and on equal scores the venues
keep their relative filter-pass/catalog order: the subsequence at any fixed
score equals the corresponding subsequence of the unsorted scored list. -/
theorem rank_results_sorted_stable (c : Constraints) (filtered : List Restaurant) :
    (rank_results c filtered).Pairwise (fun a b => b.2 ≤ a.2)
    ∧ (∀ k : ℚ, (rank_results c filtered).filter (fun z => z.2 == k)
        = (scoredResults c filtered).filter (fun z => z.2 == k))
    ∧ (rank_results c filtered).Perm (scoredResults c filtered)
    ∧ (∀ st q, (search st q).2
        = rank_results (NLPParser.parse q) (runFilter (NLPParser.parse q) st.database).1) :=
  ⟨pairwise_sortRanked _, fun k => filter_sortRanked _ k, perm_sortRanked _,
   fun _ _ => rfl⟩

/-! ## Predicate lemmas -/

theorem cuisineSeg_all (r : Restaurant) (c : Constraints) :
    ((cuisineSeg r c).all (fun x => x.2) = true) ↔
      (∀ cu, c.cuisine = some cu → cu ≠ "" → cuisineCheck r cu = true) := by
  cases hc : c.cuisine with
  | none => simp [cuisineSeg, hc]
  | some cu =>
      by_cases h : cu = "" <;> simp [cuisineSeg, hc, h]

theorem locationSeg_all (r : Restaurant) (c : Constraints) :
    ((locationSeg r c).all (fun x => x.2) = true) ↔
      (∀ loc, c.location = some loc → loc ≠ "" → locationCheck r = true) := by
  cases hc : c.location with
  | none => simp [locationSeg, hc]
  | some loc =>
      by_cases h : loc = "" <;> simp [locationSeg, hc, h]

theorem priceSeg_all (r : Restaurant) (c : Constraints) :
    ((priceSeg r c).all (fun x => x.2) = true) ↔
      (∀ pm ps, c.price_max = some pm → c.party_size = some ps →
        pm ≠ 0 → ps ≠ 0 → priceCheck r pm ps = true) := by
  cases hp : c.price_max with
  | none => simp [priceSeg, hp]
  | some pm =>
      cases hs : c.party_size with
      | none => simp [priceSeg, hp, hs]
      | some ps =>
          by_cases h : pm = 0 ∨ ps = 0
          · simp only [priceSeg, hp, hs, if_pos h]
            constructor
            · intro _ pm2 ps2 hpm2 hps2 hne1 hne2
              cases Option.some.inj hpm2
              cases Option.some.inj hps2
              rcases h with h | h
              · exact absurd h hne1
              · exact absurd h hne2
            · intro _; rfl
          · simp only [priceSeg, hp, hs, if_neg h]
            push_neg at h
            simp only [List.all_cons, List.all_nil, Bool.and_true]
            constructor
            · intro hb pm2 ps2 hpm2 hps2 _ _
              cases Option.some.inj hpm2
              cases Option.some.inj hps2
              exact hb
            · intro hb
              exact hb pm ps rfl rfl h.1 h.2

theorem availSeg_all (r : Restaurant) (c : Constraints) :
    ((availSeg r c).all (fun x => x.2) = true) ↔
      (∀ d t, c.day = some d → c.time = some t →
        d ≠ "" → t ≠ "" → availCheck r d t = true) := by
  cases hd : c.day with
  | none => simp [availSeg, hd]
  | some d =>
      cases ht : c.time with
      | none => simp [availSeg, hd, ht]
      | some t =>
          by_cases h : d = "" ∨ t = ""
          · simp only [availSeg, hd, ht, if_pos h]
            constructor
            · intro _ d2 t2 hd2 ht2 hne1 hne2
              cases Option.some.inj hd2
              cases Option.some.inj ht2
              rcases h with h | h
              · exact absurd h hne1
              · exact absurd h hne2
            · intro _; rfl
          · simp only [availSeg, hd, ht, if_neg h]
            push_neg at h
            simp only [List.all_cons, List.all_nil, Bool.and_true]
            constructor
            · intro hb d2 t2 hd2 ht2 _ _
              cases Option.some.inj hd2
              cases Option.some.inj ht2
              exact hb
            · intro hb
              exact hb d t rfl rfl h.1 h.2

theorem windowSeg_all (r : Restaurant) (c : Constraints) :
    ((windowSeg r c).all (fun x => x.2) = true) ↔
      (windowRequested c = true → windowCheck r = true) := by
  by_cases h : windowRequested c = true <;> simp [windowSeg, h]

/-- The constraint model with every field unset and no special requests. -/
def emptyConstraints : Constraints :=
  { cuisine := none, location := none, price_max := none, party_size := none,
    day := none, time := none, special_requests := [] }

/-- C2: `overallMatch` is the logical AND of exactly the evaluated checks —
each check is evaluated precisely when its constraint passes the source's
truthiness guard — and for the all-unset constraint model the predicate
returns `true` with an empty reasons list for every venue. -/
theorem matches_constraints_is_and (r : Restaurant) (c : Constraints) :
    ((r.matches_constraints c).1 = true ↔
      ((∀ cu, c.cuisine = some cu → cu ≠ "" → cuisineCheck r cu = true)
       ∧ (∀ loc, c.location = some loc → loc ≠ "" → locationCheck r = true)
       ∧ (∀ pm ps, c.price_max = some pm → c.party_size = some ps →
            pm ≠ 0 → ps ≠ 0 → priceCheck r pm ps = true)
       ∧ (∀ d t, c.day = some d → c.time = some t →
            d ≠ "" → t ≠ "" → availCheck r d t = true)
       ∧ (windowRequested c = true → windowCheck r = true)))
    ∧ r.matches_constraints emptyConstraints = (true, []) := by
  constructor
  · rw [show (r.matches_constraints c).1 = (checksOf r c).all (fun x => x.2) from rfl]
    rw [checksOf]
    simp only [List.all_append, Bool.and_eq_true]
    rw [cuisineSeg_all, locationSeg_all, priceSeg_all, availSeg_all, windowSeg_all]
    tauto
  · rfl

/-! ## Segment kind lemmas -/

theorem cuisineSeg_kinds (r : Restaurant) (c : Constraints) :
    ∀ x ∈ cuisineSeg r c, x.1 = CheckKind.cuisine := by
  cases hc : c.cuisine with
  | none => simp [cuisineSeg, hc]
  | some cu => by_cases h : cu = "" <;> simp [cuisineSeg, hc, h]

theorem locationSeg_kinds (r : Restaurant) (c : Constraints) :
    ∀ x ∈ locationSeg r c, x.1 = CheckKind.location := by
  cases hc : c.location with
  | none => simp [locationSeg, hc]
  | some loc => by_cases h : loc = "" <;> simp [locationSeg, hc, h]

theorem priceSeg_kinds (r : Restaurant) (c : Constraints) :
    ∀ x ∈ priceSeg r c, x.1 = CheckKind.price := by
  cases hp : c.price_max with
  | none => simp [priceSeg, hp]
  | some pm =>
      cases hs : c.party_size with
      | none => simp [priceSeg, hp, hs]
      | some ps => by_cases h : pm = 0 ∨ ps = 0 <;> simp [priceSeg, hp, hs, h]

theorem availSeg_kinds (r : Restaurant) (c : Constraints) :
    ∀ x ∈ availSeg r c, x.1 = CheckKind.availability := by
  cases hd : c.day with
  | none => simp [availSeg, hd]
  | some d =>
      cases ht : c.time with
      | none => simp [availSeg, hd, ht]
      | some t => by_cases h : d = "" ∨ t = "" <;> simp [availSeg, hd, ht, h]

theorem windowSeg_kinds (r : Restaurant) (c : Constraints) :
    ∀ x ∈ windowSeg r c, x.1 = CheckKind.window := by
  by_cases h : windowRequested c = true <;> simp [windowSeg, h]

/-! ## C8: the price branch is skipped on a falsy guard -/

theorem priceSeg_nil_of_falsy (r : Restaurant) (c : Constraints)
    (h : truthyQ c.price_max = false ∨ truthyNat c.party_size = false) :
    priceSeg r c = [] := by
  cases hp : c.price_max with
  | none => simp [priceSeg, hp]
  | some pm =>
      cases hs : c.party_size with
      | none => simp [priceSeg, hp, hs]
      | some ps =>
          rw [hp, hs] at h
          simp only [truthyQ, truthyNat, Bool.not_eq_false', beq_iff_eq] at h
          simp [priceSeg, hp, hs, h]

theorem priceTerm_zero_of_falsy (r : Restaurant) (c : Constraints)
    (h : truthyQ c.price_max = false ∨ truthyNat c.party_size = false) :
    priceTerm c r = 0 := by
  cases hp : c.price_max with
  | none => simp [priceTerm, hp]
  | some pm =>
      cases hs : c.party_size with
      | none => simp [priceTerm, hp, hs]
      | some ps =>
          rw [hp, hs] at h
          simp only [truthyQ, truthyNat, Bool.not_eq_false', beq_iff_eq] at h
          simp [priceTerm, hp, hs, h]

/-- C8: whenever `price_max` or `party_size` is unset or zero — the guard
tests truthiness, not presence — the whole price branch is skipped in both
the predicate and the utility score: the price-efficiency term is zero, no
price reason is emitted, and the score is computed without any division by
`price_max`.  (Division is represented structurally: the quotient
subexpression occurs only inside the guarded branch.) -/
theorem price_branch_skipped (r : Restaurant) (c : Constraints)
    (h : truthyQ c.price_max = false ∨ truthyNat c.party_size = false) :
    priceTerm c r = 0
    ∧ priceSeg r c = []
    ∧ (∀ x ∈ (r.matches_constraints c).2, x.1 ≠ CheckKind.price)
    ∧ calculate_utility c r = pyRound2 (r.rating * 6 + distScore r + windowBonus r) := by
  refine ⟨priceTerm_zero_of_falsy r c h, priceSeg_nil_of_falsy r c h, ?_, ?_⟩
  · intro x hx
    have hx2 : x ∈ checksOf r c := hx
    rw [checksOf, priceSeg_nil_of_falsy r c h] at hx2
    simp only [List.append_nil, List.mem_append] at hx2
    rcases hx2 with ((hx3 | hx3) | hx3) | hx3
    · rw [cuisineSeg_kinds r c x hx3]; intro hcon; cases hcon
    · rw [locationSeg_kinds r c x hx3]; intro hcon; cases hcon
    · rw [availSeg_kinds r c x hx3]; intro hcon; cases hcon
    · rw [windowSeg_kinds r c x hx3]; intro hcon; cases hcon
  · rw [calculate_utility, priceTerm_zero_of_falsy r c h, add_zero]

/-- C8 witness: `price_max = 0` with a set party size — the spec's invalid
divisor — is skipped without any division. -/
theorem price_branch_skipped_witness :
    priceTerm
        { cuisine := none, location := none, price_max := some 0,
          party_size := some 2, day := none, time := none,
          special_requests := [] }
        { name := "w", cuisine := "w", location := "w", price_range := "w",
          avg_price_per_person := 28, rating := 4, availability := [],
          has_window_seating := false, window_view := [],
          distance_from_center := 1 } = 0 :=
  (price_branch_skipped _ _ (Or.inl (by decide))).1

/-! ## C9: missing availability day -/

/-- C9: when day and time are set (and truthy) but the venue's availability
mapping has no entry for that day, the lookup falls back to the empty slot
list instead of failing: the availability check evaluates to `false`, exactly
one fail-tagged availability reason appears, and `overallMatch` is `false`.
(The embedding is total, mirroring `dict.get`'s non-raising default.) -/
theorem missing_day_fails_gracefully (r : Restaurant) (c : Constraints)
    (d t : String) (hd : c.day = some d) (ht : c.time = some t)
    (hd2 : d ≠ "") (ht2 : t ≠ "")
    (hmiss : dictFind r.availability d = none) :
    availCheck r d t = false
    ∧ availSeg r c = [(CheckKind.availability, false)]
    ∧ ((r.matches_constraints c).2.filter
        (fun x => x.1 == CheckKind.availability)) = [(CheckKind.availability, false)]
    ∧ (r.matches_constraints c).1 = false := by
  have hchk : availCheck r d t = false := by
    rw [availCheck, dictGetD, hmiss]
    rfl
  have hseg : availSeg r c = [(CheckKind.availability, false)] := by
    simp only [availSeg, hd, ht]
    rw [if_neg (by simp [hd2, ht2]), hchk]
  refine ⟨hchk, hseg, ?_, ?_⟩
  · have h1 : (cuisineSeg r c).filter (fun x => x.1 == CheckKind.availability) = [] := by
      rw [List.filter_eq_nil_iff]
      intro x hx
      rw [cuisineSeg_kinds r c x hx]
      decide
    have h2 : (locationSeg r c).filter (fun x => x.1 == CheckKind.availability) = [] := by
      rw [List.filter_eq_nil_iff]
      intro x hx
      rw [locationSeg_kinds r c x hx]
      decide
    have h3 : (priceSeg r c).filter (fun x => x.1 == CheckKind.availability) = [] := by
      rw [List.filter_eq_nil_iff]
      intro x hx
      rw [priceSeg_kinds r c x hx]
      decide
    have h5 : (windowSeg r c).filter (fun x => x.1 == CheckKind.availability) = [] := by
      rw [List.filter_eq_nil_iff]
      intro x hx
      rw [windowSeg_kinds r c x hx]
      decide
    show (checksOf r c).filter (fun x => x.1 == CheckKind.availability) = _
    rw [checksOf]
    simp only [List.filter_append, h1, h2, h3, h5, hseg]
    rfl
  · have hmem : (CheckKind.availability, false) ∈ checksOf r c := by
      rw [checksOf]
      refine List.mem_append.mpr (Or.inl ?_)
      refine List.mem_append.mpr (Or.inr ?_)
      rw [hseg]
      exact List.mem_singleton.mpr rfl
    show (checksOf r c).all (fun x => x.2) = false
    cases hall : (checksOf r c).all (fun x => x.2) with
    | false => rfl
    | true =>
        have := List.all_eq_true.mp hall (CheckKind.availability, false) hmem
        cases this
  
/-- C9 witness: a venue with no Friday entry, constrained to Friday 6 pm. -/
theorem missing_day_fails_gracefully_witness :
    (Restaurant.matches_constraints
        { name := "w9", cuisine := "w9", location := "w9", price_range := "w9",
          avg_price_per_person := 10, rating := 4,
          availability := [("Thursday", ["6:00 pm"])],
          has_window_seating := false, window_view := [],
          distance_from_center := 1 }
        { cuisine := none, location := none, price_max := none,
          party_size := none, day := some ("Friday"), time := some ("6:00 pm"),
          special_requests := [] }).1 = false :=
  (missing_day_fails_gracefully _ _ ("Friday") ("6:00 pm") rfl rfl
    (by decide) (by decide) (by decide)).2.2.2

/-! ## C4: bounds of the price-efficiency term -/

/-- C4: for a venue with non-negative average price, a strictly positive
budget, a positive party size, and a passing price filter, the
price-efficiency term `((price_max - total_cost) / price_max) * 20` of the
utility score lies in `[0, 20]`. -/
theorem priceTerm_bounds (c : Constraints) (r : Restaurant) (pm : ℚ) (ps : Nat)
    (hcp : c.price_max = some pm) (hcs : c.party_size = some ps)
    (havg : 0 ≤ r.avg_price_per_person) (hpm : 0 < pm) (hps : 0 < ps)
    (hpass : priceCheck r pm ps = true) :
    0 ≤ priceTerm c r ∧ priceTerm c r ≤ 20 := by
  rw [priceCheck, decide_eq_true_iff] at hpass
  have hne : ¬ (pm = 0 ∨ ps = 0) := by
    push_neg
    exact ⟨ne_of_gt hpm, Nat.pos_iff_ne_zero.mp hps⟩
  simp only [priceTerm, hcp, hcs, if_neg hne]
  have htc : (0 : ℚ) ≤ r.avg_price_per_person * (ps : ℚ) :=
    mul_nonneg havg (by positivity)
  constructor
  · apply mul_nonneg
    · apply div_nonneg
      · linarith
      · linarith
    · norm_num
  · have h1 : (pm - r.avg_price_per_person * (ps : ℚ)) / pm ≤ 1 := by
      rw [div_le_one hpm]
      linarith
    calc (pm - r.avg_price_per_person * (ps : ℚ)) / pm * 20
        ≤ 1 * 20 := by
          apply mul_le_mul_of_nonneg_right h1
          norm_num
      _ = 20 := one_mul 20

/-- C4 witness: budget 65, party of two, average price 28. -/
theorem priceTerm_bounds_witness :
    0 ≤ priceTerm
          { cuisine := none, location := none, price_max := some 65,
            party_size := some 2, day := none, time := none,
            special_requests := [] }
          { name := "w4", cuisine := "w4", location := "w4",
            price_range := "w4", avg_price_per_person := 28, rating := 4,
            availability := [], has_window_seating := false,
            window_view := [], distance_from_center := 1 }
    ∧ priceTerm
          { cuisine := none, location := none, price_max := some 65,
            party_size := some 2, day := none, time := none,
            special_requests := [] }
          { name := "w4", cuisine := "w4", location := "w4",
            price_range := "w4", avg_price_per_person := 28, rating := 4,
            availability := [], has_window_seating := false,
            window_view := [], distance_from_center := 1 } ≤ 20 :=
  priceTerm_bounds _ _ 65 2 rfl rfl (by norm_num) (by norm_num) (by norm_num)
    (by norm_num [priceCheck])

/-! ## C5: the utility score is monotone in rating -/

theorem bankerRound_floor_le (q : ℚ) : ⌊q⌋ ≤ bankerRound q := by
  unfold bankerRound
  split_ifs <;> omega

theorem bankerRound_le_floor_add_one (q : ℚ) : bankerRound q ≤ ⌊q⌋ + 1 := by
  unfold bankerRound
  split_ifs <;> omega

theorem bankerRound_mono {x y : ℚ} (h : x ≤ y) : bankerRound x ≤ bankerRound y := by
  rcases lt_or_eq_of_le (Int.floor_mono h) with hf | hf
  · calc bankerRound x ≤ ⌊x⌋ + 1 := bankerRound_le_floor_add_one x
      _ ≤ ⌊y⌋ := by omega
      _ ≤ bankerRound y := bankerRound_floor_le y
  · unfold bankerRound
    rw [← hf]
    have hxy : x - (⌊x⌋ : ℚ) ≤ y - (⌊x⌋ : ℚ) := by linarith
    split_ifs <;> first | omega | linarith

theorem pyRound2_mono {x y : ℚ} (h : x ≤ y) : pyRound2 x ≤ pyRound2 y := by
  unfold pyRound2
  have h1 : bankerRound (x * 100) ≤ bankerRound (y * 100) :=
    bankerRound_mono (by linarith)
  have h2 : ((bankerRound (x * 100) : ℤ) : ℚ) ≤ ((bankerRound (y * 100) : ℤ) : ℚ) := by
    exact_mod_cast h1
  gcongr

/-- C5: holding every other venue attribute fixed, the utility score computed
by `_calculate_utility` is monotonically non-decreasing in the rating; the
final rounding to two decimals (Python's round-half-to-even) preserves the
monotonicity. -/
theorem utility_mono_in_rating (c : Constraints) (r : Restaurant) (a b : ℚ)
    (hab : a ≤ b) :
    calculate_utility c { r with rating := a }
      ≤ calculate_utility c { r with rating := b } := by
  have hpt : priceTerm c { r with rating := a } = priceTerm c { r with rating := b } := rfl
  have hds : distScore { r with rating := a } = distScore { r with rating := b } := rfl
  have hwb : windowBonus { r with rating := a } = windowBonus { r with rating := b } := rfl
  unfold calculate_utility
  apply pyRound2_mono
  rw [hpt, hds, hwb]
  have : ({ r with rating := a } : Restaurant).rating = a := rfl
  rw [this]
  have : ({ r with rating := b } : Restaurant).rating = b := rfl
  rw [this]
  have h6 : a * 6 ≤ b * 6 := by linarith
  linarith

/-- C5 witness: raising the rating from 4 to 4.5 does not lower the score. -/
theorem utility_mono_in_rating_witness :
    calculate_utility emptyConstraints
        { name := "w5", cuisine := "w5", location := "w5", price_range := "w5",
          avg_price_per_person := 28, rating := 4, availability := [],
          has_window_seating := true, window_view := ["garden"],
          distance_from_center := 1 }
      ≤ calculate_utility emptyConstraints
        { name := "w5", cuisine := "w5", location := "w5", price_range := "w5",
          avg_price_per_person := 28, rating := 4.5, availability := [],
          has_window_seating := true, window_view := ["garden"],
          distance_from_center := 1 } :=
  utility_mono_in_rating emptyConstraints
    { name := "w5", cuisine := "w5", location := "w5", price_range := "w5",
      avg_price_per_person := 28, rating := 0, availability := [],
      has_window_seating := true, window_view := ["garden"],
      distance_from_center := 1 } 4 4.5 (by norm_num)

/-! ## C3: Scenario A -/

/-- The Scenario A query. -/
def scenarioAQuery : String := "Turkish restaurant in Downtown Baltimore"

/-- The constraints the parser extracts for Scenario A. -/
def scenarioAConstraints : Constraints := NLPParser.parse scenarioAQuery

/-- The catalog's Turkish venues located in "Downtown Baltimore, MD". -/
def turkishDowntownMD : List Restaurant :=
  create_mock_database.filter
    (fun r => r.cuisine == "Turkish" && r.location == "Downtown Baltimore, MD")

/-- The Harbor East Turkish venue (last catalog entry). -/
def turkishDelight : Restaurant := create_mock_database.get ⟨5, by decide⟩

/-- C3 counterexample: the claim as stated is false — the catalog does not
contain five Turkish venues located in "Downtown Baltimore, MD" (it contains
four), so "all five Turkish venues located in Downtown Baltimore, MD pass"
fails at its own venue count. -/
theorem scenarioA_not_five_downtown_turkish :
    ¬ (turkishDowntownMD.length = 5
       ∧ turkishDowntownMD.all
           (fun r => (r.matches_constraints scenarioAConstraints).1) = true
       ∧ (turkishDelight.matches_constraints scenarioAConstraints).1 = false) := by
  intro h
  have h1 : turkishDowntownMD.length = 4 := by decide
  rw [h1] at h
  cases h.1

/-- C3 amended: for Scenario A's query the parser extracts cuisine "Turkish"
and location "Downtown Baltimore"; the evaluated checks are exactly cuisine
and location; all FOUR Turkish venues located in "Downtown Baltimore, MD"
pass both checks (hence match overall), and the Harbor East Turkish venue
"Turkish Delight" passes the cuisine check but fails the location check. -/
theorem scenarioA_four_downtown_turkish_pass :
    scenarioAConstraints.cuisine = some ("Turkish")
    ∧ scenarioAConstraints.location = some ("Downtown Baltimore")
    ∧ turkishDowntownMD.length = 4
    ∧ turkishDowntownMD.map Restaurant.name
        = [("Istanbul Grill"), ("Anatolian Kitchen"), ("Bosphorus Cafe"),
           ("Sultan\x27s Table")]
    ∧ turkishDowntownMD.all
        (fun r => (r.matches_constraints scenarioAConstraints)
            == (true, [(CheckKind.cuisine, true), (CheckKind.location, true)])) = true
    ∧ turkishDelight.name = "Turkish Delight"
    ∧ turkishDelight.matches_constraints scenarioAConstraints
        = (false, [(CheckKind.cuisine, true), (CheckKind.location, false)]) := by
  refine ⟨by decide, by decide, by decide, by decide, by decide, by decide, by decide⟩

/-! ## C6: Scenario D -/

/-- The Scenario D query (the triple-quoted query of `main`, verbatim,
including its line breaks and indentation). -/
def scenarioDQuery : String :=
  "Find a Turkish restaurant in Downtown Baltimore, MD for two people \n    to have dinner under $65 on Thursday night at 7:30 pm with a table for two \n    near a window with a view of the garden or the street."

/-- The constraints the parser extracts for Scenario D. -/
def scenarioDConstraints : Constraints := NLPParser.parse scenarioDQuery

/-- The venues surviving Scenario D filtering, in catalog order. -/
def scenarioDPassers : List Restaurant :=
  (runFilter scenarioDConstraints create_mock_database).1

/-- C6: the extractor produces party_size 2, price_max 65, day "Thursday"
and time "7:30 pm"; filtering the built-in catalog passes only venues with
the exact "7:30 pm" Thursday slot, window seating with a non-empty view, and
total cost at most $65 — and the passers are exactly "Istanbul Grill" and
"Anatolian Kitchen". -/
theorem scenarioD_extraction_and_filtering :
    scenarioDConstraints.party_size = some 2
    ∧ scenarioDConstraints.price_max = some 65
    ∧ scenarioDConstraints.day = some ("Thursday")
    ∧ scenarioDConstraints.time = some ("7:30 pm")
    ∧ scenarioDPassers.map Restaurant.name
        = [("Istanbul Grill"), ("Anatolian Kitchen")]
    ∧ scenarioDPassers.all
        (fun r => (dictGetD r.availability ("Thursday")).contains ("7:30 pm")
          && (r.has_window_seating && !r.window_view.isEmpty)
          && decide (r.avg_price_per_person * 2 ≤ 65)) = true := by
  refine ⟨by decide, by decide, by decide, by decide,
    by with_unfolding_all decide, by with_unfolding_all decide⟩

/-! ## C7: party-size extraction -/

/-- C7: when the first match of the party pattern captures token `t`, the
parser sets `party_size` to `tokenToNum t`: the number parsed directly for a
digit token, the mapped value for the words one..five, and the default 2 for
any other word token; the extraction is logged as an ordinary trace event,
not an error (the parser has no error channel at all). -/
theorem party_size_extraction (q : String) (t : List Char)
    (h : partySearch (pyLowerChars q.data) = some t) :
    (NLPParser.parse q).party_size = some (tokenToNum t)
    ∧ (pyIsDigit t = true → tokenToNum t = digitsToNat t)
    ∧ tokenToNum ("one").data = 1
    ∧ tokenToNum ("two").data = 2
    ∧ tokenToNum ("three").data = 3
    ∧ tokenToNum ("four").data = 4
    ∧ tokenToNum ("five").data = 5
    ∧ (pyIsDigit t = false →
        t ∉ [("one").data, ("two").data, ("three").data, ("four").data,
             ("five").data] →
        tokenToNum t = 2)
    ∧ PEvent.partyFound (tokenToNum t) ∈ parseEvents q := by
  refine ⟨?_, ?_, by decide, by decide, by decide, by decide, by decide, ?_, ?_⟩
  · simp [NLPParser.parse, parseWithEvents, h]
  · intro h1
    rw [tokenToNum, if_pos h1]
  · intro h1 h2
    simp only [List.mem_cons, List.not_mem_nil, or_false, not_or] at h2
    rw [tokenToNum, if_neg (by rw [h1]; intro hcon; cases hcon)]
    rw [word_to_num]
    rw [wordLookup, if_neg (by simp [beq_iff_eq]; intro hcon; exact h2.1 hcon.symm)]
    rw [wordLookup, if_neg (by simp [beq_iff_eq]; intro hcon; exact h2.2.1 hcon.symm)]
    rw [wordLookup, if_neg (by simp [beq_iff_eq]; intro hcon; exact h2.2.2.1 hcon.symm)]
    rw [wordLookup, if_neg (by simp [beq_iff_eq]; intro hcon; exact h2.2.2.2.1 hcon.symm)]
    rw [wordLookup, if_neg (by simp [beq_iff_eq]; intro hcon; exact h2.2.2.2.2 hcon.symm)]
    rfl
  · simp [parseEvents, parseWithEvents, h]

/-- C7 witness: the word token "six" is outside the one..five map and
silently defaults to a party size of 2. -/
theorem party_size_extraction_witness :
    (NLPParser.parse ("dinner for six people")).party_size = some 2 :=
  (party_size_extraction ("dinner for six people") (("six").data) (by decide)).1

/-! ## C10: the parser logger leaks across searches -/

theorem search_parserLogger (st : AgentState) (q : String) :
    (search st q).1.parserLogger = st.parserLogger ++ parseEvents q := rfl

theorem search_log_eq (st : AgentState) (q : String) :
    (search st q).1.log
      = st.log
        ++ [LogEntry.rule, LogEntry.started, LogEntry.rule,
            LogEntry.transition st.state SearchState.NLP_PARSING]
        ++ (st.parserLogger ++ parseEvents q).map LogEntry.nlp
        ++ [LogEntry.transition SearchState.NLP_PARSING SearchState.CONSTRAINT_EXTRACTION,
            LogEntry.constraintsMsg (NLPParser.parse q),
            LogEntry.transition SearchState.CONSTRAINT_EXTRACTION SearchState.DATA_RETRIEVAL,
            LogEntry.retrievedMsg st.database.length,
            LogEntry.transition SearchState.DATA_RETRIEVAL SearchState.FILTERING,
            LogEntry.filterStart]
        ++ (runFilter (NLPParser.parse q) st.database).2
        ++ [LogEntry.filterDone (runFilter (NLPParser.parse q) st.database).1.length
              st.database.length,
            LogEntry.transition SearchState.FILTERING SearchState.RANKING,
            LogEntry.rankStart]
        ++ rankLog (NLPParser.parse q) (runFilter (NLPParser.parse q) st.database).1
        ++ [LogEntry.transition SearchState.RANKING SearchState.COMPLETE,
            LogEntry.rule, LogEntry.completed, LogEntry.rule] := rfl

theorem count_map_nlp (l : List PEvent) (e : PEvent) :
    (l.map LogEntry.nlp).count (LogEntry.nlp e) = l.count e := by
  induction l with
  | nil => rfl
  | cons a as ih => simp [List.count_cons, ih]

theorem search_log_count (st : AgentState) (q : String) (e : PEvent) :
    st.log.count (LogEntry.nlp e) + (st.parserLogger ++ parseEvents q).count e
      ≤ (search st q).1.log.count (LogEntry.nlp e) := by
  rw [search_log_eq]
  simp only [List.count_append, count_map_nlp]
  omega

/-- C10: running `search q1` then `search q2` on the same agent instance
duplicates q1's parser trace in the agent log: the parser's logger is never
reset, so after the second call it holds the events of both parses, and each
`search` copies the parser's entire accumulated logger into the agent log —
every trace event of q1 therefore occurs in the final log at least twice its
multiplicity in one parse of q1. -/
theorem repeated_search_duplicates_parser_trace (q1 q2 : String) :
    (search (search initAgent q1).1 q2).1.parserLogger
        = parseEvents q1 ++ parseEvents q2
    ∧ ∀ e : PEvent,
        2 * (parseEvents q1).count e
          ≤ (search (search initAgent q1).1 q2).1.log.count (LogEntry.nlp e) := by
  constructor
  · rw [search_parserLogger, search_parserLogger]
    show ([] ++ parseEvents q1) ++ parseEvents q2 = _
    rw [List.nil_append]
  · intro e
    have h1 := search_log_count initAgent q1 e
    have h2 := search_log_count (search initAgent q1).1 q2 e
    rw [search_parserLogger] at h2
    have h0 : initAgent.log.count (LogEntry.nlp e) = 0 := rfl
    have h0b : initAgent.parserLogger = ([] : List PEvent) := rfl
    rw [h0, h0b] at h1
    rw [h0b] at h2
    simp only [List.nil_append, List.count_append, Nat.zero_add] at h1 h2
    omega
